import Mathlib

/-!
Shallow embedding of the rust-bip85 library (`src/lib.rs`).

The library derives BIP-85 application secrets from a BIP-32 master key.
External collaborators (the BIP-32 hardened child-key derivation of
rust-bitcoin, HMAC-SHA512, secp256k1 secret-key range validation, and the
BIP-39 mnemonic encoder) are out of scope per the specification and are
modelled as an abstract bundle of functions (`Ext`); every theorem is
quantified over that bundle.  A Rust `unwrap()` on a failed external call
is modelled by the distinguished result `PResult.panic`, kept apart from
the library's own error values (`PResult.err`).
-/

namespace Bip85

/-- rust-bitcoin `Network` tag carried by extended keys. -/
inductive Network
  | bitcoin
  | testnet
  | signet
  | regtest
deriving DecidableEq

/-- rust-bitcoin `ChildNumber`: one derivation step, normal or hardened,
carrying a 31-bit index. -/
inductive ChildNumber
  | Normal (index : Nat)
  | Hardened (index : Nat)
deriving DecidableEq

/-- rust-bitcoin `ChildNumber::from_hardened_idx`: succeeds exactly when the
index fits in 31 bits. -/
def fromHardenedIdx (index : Nat) : Option ChildNumber :=
  if index < 0x80000000 then some (ChildNumber.Hardened index) else none

/-- Abstract error type of the external BIP-32 derivation primitive. -/
structure Bip32Error where
  code : Nat
deriving DecidableEq

/-- rust-bitcoin `PrivateKey`: 32 raw secret bytes plus metadata. -/
structure PrivateKey where
  compressed : Bool
  network : Network
  key : List Nat
deriving DecidableEq

/-- rust-bitcoin `ExtendedPrivKey`: the fields the library reads or writes. -/
structure ExtendedPrivKey where
  network : Network
  depth : Nat
  parent_fingerprint : List Nat
  child_number : ChildNumber
  private_key : PrivateKey
  chain_code : List Nat
deriving DecidableEq

/-- The library's `Error` enum (`src/lib.rs` lines 44-52): only three
input-validation variants, none for propagated derivation failures. -/
inductive Error
  | InvalidIndex (index : Nat)
  | InvalidLength (length : Nat)
  | InvalidWordCount (word_count : Nat)
deriving DecidableEq

/-- Result of one library call: a Rust panic (`unwrap` of a failed external
call), a library `Error` value, or a success value. -/
inductive PResult (α : Type)
  | panic
  | err (e : Error)
  | ok (a : α)
deriving DecidableEq

/-- Whether a call succeeded. -/
def PResult.isOk {α : Type} : PResult α → Bool
  | .ok _ => true
  | _ => false

/-- Whether a call returned a library `Error` value. -/
def PResult.isErrValue {α : Type} : PResult α → Bool
  | .err _ => true
  | _ => false

/-- Whether an external call succeeded. -/
def exceptIsOk {ε α : Type} : Except ε α → Bool
  | .ok _ => true
  | .error _ => false

/-- The external primitives the library delegates to: BIP-32 hardened
child derivation, HMAC-SHA512 (whose output always has 64 bytes),
secp256k1 `SecretKey::from_slice` range validation, and the BIP-39
`Mnemonic::from_entropy` encoder. -/
structure Ext where
  ckdPriv : ExtendedPrivKey → ChildNumber → Except Bip32Error ExtendedPrivKey
  hmacSha512 : List Nat → List Nat → List Nat
  hmac_len : ∀ k m, (hmacSha512 k m).length = 64
  secValid : List Nat → Bool
  mnemonicFromEntropy : List Nat → Option (List String)

/-- ASCII bytes of the fixed HMAC key `"bip-entropy-from-k"`. -/
def bipEntropyKey : List Nat := "bip-entropy-from-k".data.map Char.toNat

/-- `BIP85_CHILD_NUMBER`: the hardened BIP-85 namespace index 83696968. -/
def bip85ChildNumber : ChildNumber := ChildNumber.Hardened 83696968

/-- rust-bitcoin `ExtendedPrivKey::derive_priv`: fold `ckd_priv` over a
path, stopping at the first external error. -/
def derivePrivPath (ext : Ext) (k : ExtendedPrivKey) :
    List ChildNumber → Except Bip32Error ExtendedPrivKey
  | [] => Except.ok k
  | c :: rest =>
    match ext.ckdPriv k c with
    | Except.error e => Except.error e
    | Except.ok k2 => derivePrivPath ext k2 rest

/-- `derive` (`src/lib.rs` lines 85-97): one hardened step to the BIP-85
namespace child, then the caller's path, both results unwrapped (panic on
external failure), then HMAC-SHA512 keyed by `"bip-entropy-from-k"` over
the derived private key's raw bytes (`to_bytes`). -/
def derive (ext : Ext) (root : ExtendedPrivKey) (path : List ChildNumber) :
    PResult (List Nat) :=
  match ext.ckdPriv root bip85ChildNumber with
  | Except.error _ => PResult.panic
  | Except.ok bip85_root =>
    match derivePrivPath ext bip85_root path with
    | Except.error _ => PResult.panic
    | Except.ok derived =>
      PResult.ok (ext.hmacSha512 bipEntropyKey derived.private_key.key)

/-- `derive_priv` (`src/lib.rs` lines 103-120): WIF application, path
`[2', index']`, first 32 entropy bytes become a compressed private key on
the root's network; `SecretKey::from_slice(..).unwrap()` panics when the
scalar is out of range. -/
def derive_priv (ext : Ext) (root : ExtendedPrivKey) (index : Nat) :
    PResult PrivateKey :=
  if 0x80000000 ≤ index then PResult.err (Error.InvalidIndex index)
  else
    match fromHardenedIdx index with
    | none => PResult.panic
    | some ci =>
      match derive ext root [ChildNumber.Hardened 2, ci] with
      | PResult.panic => PResult.panic
      | PResult.err e => PResult.err e
      | PResult.ok data =>
        if ext.secValid (data.take 32) then
          PResult.ok ⟨true, root.network, data.take 32⟩
        else PResult.panic

/-- `derive_xprv` (`src/lib.rs` lines 122-147): xprv application, path
`[32', index']`; entropy bytes 32..64 become the scalar, bytes 0..32 the
chain code, with depth 0, a zeroed (default) parent fingerprint, child
number `Normal 0`, and the root's network. -/
def derive_xprv (ext : Ext) (root : ExtendedPrivKey) (index : Nat) :
    PResult ExtendedPrivKey :=
  if 0x80000000 ≤ index then PResult.err (Error.InvalidIndex index)
  else
    match fromHardenedIdx index with
    | none => PResult.panic
    | some ci =>
      match derive ext root [ChildNumber.Hardened 32, ci] with
      | PResult.panic => PResult.panic
      | PResult.err e => PResult.err e
      | PResult.ok data =>
        if ext.secValid (data.drop 32) then
          PResult.ok ⟨root.network, 0, List.replicate 4 0, ChildNumber.Normal 0,
            ⟨true, root.network, data.drop 32⟩, data.take 32⟩
        else PResult.panic

/-- `derive_hex` (`src/lib.rs` lines 152-171): hex-entropy application,
path `[128169', length', index']`, returning the first `length` bytes;
length is validated before the index. -/
def derive_hex (ext : Ext) (root : ExtendedPrivKey) (length index : Nat) :
    PResult (List Nat) :=
  if length < 16 ∨ 64 < length then PResult.err (Error.InvalidLength length)
  else if 0x80000000 ≤ index then PResult.err (Error.InvalidIndex index)
  else
    match fromHardenedIdx length, fromHardenedIdx index with
    | some cl, some ci =>
      match derive ext root [ChildNumber.Hardened 128169, cl, ci] with
      | PResult.panic => PResult.panic
      | PResult.err e => PResult.err e
      | PResult.ok data => PResult.ok (data.take length)
    | _, _ => PResult.panic

/-- `derive_mnemonic` (`src/lib.rs` lines 174-196): BIP-39 application,
path `[39', 0', word_count', index']` (hardened 0 selects English); the
word count is validated before the index; `word_count * 4 / 3` entropy
bytes are handed to the external mnemonic encoder, whose failure is
unwrapped (panic). -/
def derive_mnemonic (ext : Ext) (root : ExtendedPrivKey)
    (word_count index : Nat) : PResult (List String) :=
  if word_count < 12 ∨ 24 < word_count ∨ word_count % 6 ≠ 0 then
    PResult.err (Error.InvalidWordCount word_count)
  else if 0x80000000 ≤ index then PResult.err (Error.InvalidIndex index)
  else
    match fromHardenedIdx word_count, fromHardenedIdx index with
    | some cw, some ci =>
      match derive ext root
          [ChildNumber.Hardened 39, ChildNumber.Hardened 0, cw, ci] with
      | PResult.panic => PResult.panic
      | PResult.err e => PResult.err e
      | PResult.ok data =>
        match ext.mnemonicFromEntropy (data.take (word_count * 4 / 3)) with
        | some m => PResult.ok m
        | none => PResult.panic
    | _, _ => PResult.panic

/-- Modelled from the spec: the reference computation of section 4.1 —
walk the single path whose first element is the hardened BIP-85 namespace
index followed by the caller's path, then HMAC-SHA512 with ASCII key
`"bip-entropy-from-k"` over the derived key's raw bytes, returning the
64-byte output verbatim. -/
def deriveSpecModel (ext : Ext) (root : ExtendedPrivKey)
    (path : List ChildNumber) : PResult (List Nat) :=
  match derivePrivPath ext root (bip85ChildNumber :: path) with
  | Except.error _ => PResult.panic
  | Except.ok derived =>
    PResult.ok (ext.hmacSha512 bipEntropyKey derived.private_key.key)

/-- A concrete external bundle whose primitives always succeed, used to
exercise the embedding on closed inputs. -/
def extT : Ext :=
  ⟨fun k _ => Except.ok k, fun _ _ => List.range 64,
   by intro k m; simp, fun _ => true, fun _ => some []⟩

/-- A concrete external bundle whose BIP-32 derivation always fails. -/
def extFail : Ext :=
  ⟨fun _ _ => Except.error ⟨7⟩, fun _ _ => List.range 64,
   by intro k m; simp, fun _ => true, fun _ => some []⟩

/-- A concrete master key. -/
def rootT : ExtendedPrivKey :=
  ⟨Network.bitcoin, 0, List.replicate 4 0, ChildNumber.Normal 0,
   ⟨true, Network.bitcoin, List.replicate 32 1⟩, List.replicate 32 0⟩

lemma derivePrivPath_ok_of (ext : Ext)
    (hck : ∀ k c, exceptIsOk (ext.ckdPriv k c) = true) :
    ∀ (path : List ChildNumber) (k : ExtendedPrivKey),
      ∃ d, derivePrivPath ext k path = Except.ok d := by
  intro path
  induction path with
  | nil => intro k; exact ⟨k, rfl⟩
  | cons c rest ih =>
    intro k
    have hc := hck k c
    cases h : ext.ckdPriv k c with
    | error e => rw [h] at hc; simp [exceptIsOk] at hc
    | ok k2 =>
      obtain ⟨d, hd⟩ := ih k2
      refine ⟨d, ?_⟩
      unfold derivePrivPath
      rw [h]
      exact hd

lemma derive_ok_of (ext : Ext)
    (hck : ∀ k c, exceptIsOk (ext.ckdPriv k c) = true)
    (root : ExtendedPrivKey) (path : List ChildNumber) :
    ∃ data, derive ext root path = PResult.ok data := by
  have h0 := hck root bip85ChildNumber
  cases h : ext.ckdPriv root bip85ChildNumber with
  | error e => rw [h] at h0; simp [exceptIsOk] at h0
  | ok k =>
    obtain ⟨d, hd⟩ := derivePrivPath_ok_of ext hck path k
    exact ⟨_, by unfold derive; rw [h]; dsimp only; rw [hd]⟩

lemma derive_ok_length (ext : Ext) (root : ExtendedPrivKey)
    (path : List ChildNumber) (data : List Nat)
    (h : derive ext root path = PResult.ok data) : data.length = 64 := by
  unfold derive at h
  cases h1 : ext.ckdPriv root bip85ChildNumber with
  | error e => rw [h1] at h; exact absurd h (by simp)
  | ok k =>
    rw [h1] at h
    dsimp only at h
    cases h2 : derivePrivPath ext k path with
    | error e => rw [h2] at h; exact absurd h (by simp)
    | ok d =>
      rw [h2] at h
      dsimp only at h
      simp only [PResult.ok.injEq] at h
      rw [← h]
      exact ext.hmac_len _ _

lemma fromHardenedIdx_lt {index : Nat} (h : index < 0x80000000) :
    fromHardenedIdx index = some (ChildNumber.Hardened index) := by
  unfold fromHardenedIdx
  rw [if_pos h]

/-- C2: `derive` equals the reference computation: one hardened child at
the BIP-85 namespace index 83696968, then the caller's path, then
HMAC-SHA512 keyed by `"bip-entropy-from-k"` over the derived private
key's raw bytes, returned verbatim; equivalently, the single path walked
starts with the hardened namespace element (`deriveSpecModel` walks
`bip85ChildNumber :: path` in one pass). -/
theorem c2_derive_eq_spec (ext : Ext) (root : ExtendedPrivKey)
    (path : List ChildNumber) :
    derive ext root path = deriveSpecModel ext root path := by
  unfold derive deriveSpecModel
  have hcons : derivePrivPath ext root (bip85ChildNumber :: path) =
      match ext.ckdPriv root bip85ChildNumber with
      | Except.error e => Except.error e
      | Except.ok k2 => derivePrivPath ext k2 path := rfl
  rw [hcons]
  cases h : ext.ckdPriv root bip85ChildNumber with
  | error e => rfl
  | ok k => rfl

/-- C8: the Path Deriver is a deterministic pure function: two calls to
`derive` on the same external primitives, root and path yield equal
results (the embedding is a pure function, which is itself the record
that the source has no randomness, I/O, or side effects). -/
theorem c8_deterministic (ext : Ext) (root : ExtendedPrivKey)
    (path : List ChildNumber) (out1 out2 : PResult (List Nat))
    (h1 : derive ext root path = out1) (h2 : derive ext root path = out2) :
    out1 = out2 := by
  rw [← h1, ← h2]

/-- C8 witness: determinism instantiated at the concrete bundle and key. -/
theorem c8_witness :
    (PResult.ok (List.range 64) : PResult (List Nat)) = PResult.ok (List.range 64) :=
  c8_deterministic extT rootT [] (PResult.ok (List.range 64))
    (PResult.ok (List.range 64)) rfl rfl

/-- C10: the `Err` branch of `derive` is unreachable — `derive` never
returns a library error value; when both external derivation stages
succeed it returns `ok` with exactly 64 bytes, and when either external
stage fails it panics (`unwrap`) instead of producing an error value. -/
theorem c10_err_unreachable (ext : Ext) (root : ExtendedPrivKey)
    (path : List ChildNumber) :
    (derive ext root path).isErrValue = false
    ∧ (∀ data, derive ext root path = PResult.ok data → data.length = 64)
    ∧ (exceptIsOk (ext.ckdPriv root bip85ChildNumber) = false →
        derive ext root path = PResult.panic)
    ∧ (∀ k, ext.ckdPriv root bip85ChildNumber = Except.ok k →
        exceptIsOk (derivePrivPath ext k path) = false →
        derive ext root path = PResult.panic)
    ∧ (∀ k, ext.ckdPriv root bip85ChildNumber = Except.ok k →
        exceptIsOk (derivePrivPath ext k path) = true →
        (derive ext root path).isOk = true) := by
  refine ⟨?_, fun data h => derive_ok_length ext root path data h, ?_, ?_, ?_⟩
  · unfold derive
    cases h1 : ext.ckdPriv root bip85ChildNumber with
    | error e => rfl
    | ok k =>
      dsimp only
      cases h2 : derivePrivPath ext k path with
      | error e => rfl
      | ok d => rfl
  · intro hko
    unfold derive
    cases h1 : ext.ckdPriv root bip85ChildNumber with
    | error e => rfl
    | ok k => rw [h1] at hko; simp [exceptIsOk] at hko
  · intro k hk hpath
    unfold derive
    rw [hk]
    dsimp only
    cases h2 : derivePrivPath ext k path with
    | error e => rfl
    | ok d => rw [h2] at hpath; simp [exceptIsOk] at hpath
  · intro k hk hpath
    unfold derive
    rw [hk]
    dsimp only
    cases h2 : derivePrivPath ext k path with
    | error e => rw [h2] at hpath; simp [exceptIsOk] at hpath
    | ok d => rfl

/-- C10 witness: at the always-succeeding bundle the success branch fires
with satisfied hypotheses. -/
theorem c10_witness : (derive extT rootT []).isOk = true :=
  (c10_err_unreachable extT rootT []).2.2.2.2 rootT rfl rfl

/-- C1 counterexample: at a concrete bundle whose external HD-derivation
primitive fails on every call, `derive` does not return the failure as an
error value — it panics; the claim that the error is returned unmodified
as the error value is false (the library `Error` type has no variant that
could even carry it). -/
theorem c1_counterexample :
    exceptIsOk (extFail.ckdPriv rootT bip85ChildNumber) = false
    ∧ derive extFail rootT [] = PResult.panic
    ∧ (derive extFail rootT []).isErrValue = false :=
  ⟨rfl, rfl, rfl⟩

/-- C1 amended: when the external HD-derivation primitive fails (at the
namespace step or along the path), `derive` panics (Rust `unwrap`) rather
than returning the external error as its error value, and no input makes
`derive` return an error value at all. -/
theorem c1_panic_not_propagate (ext : Ext) (root : ExtendedPrivKey)
    (path : List ChildNumber) :
    (exceptIsOk (ext.ckdPriv root bip85ChildNumber) = false →
      derive ext root path = PResult.panic)
    ∧ (∀ k, ext.ckdPriv root bip85ChildNumber = Except.ok k →
        exceptIsOk (derivePrivPath ext k path) = false →
        derive ext root path = PResult.panic)
    ∧ (∀ e, derive ext root path ≠ PResult.err e) := by
  refine ⟨?_, ?_, ?_⟩
  · intro hko
    unfold derive
    cases h1 : ext.ckdPriv root bip85ChildNumber with
    | error e => rfl
    | ok k => rw [h1] at hko; simp [exceptIsOk] at hko
  · intro k hk hpath
    unfold derive
    rw [hk]
    dsimp only
    cases h2 : derivePrivPath ext k path with
    | error e => rfl
    | ok d => rw [h2] at hpath; simp [exceptIsOk] at hpath
  · intro e
    unfold derive
    cases h1 : ext.ckdPriv root bip85ChildNumber with
    | error e2 => simp
    | ok k =>
      dsimp only
      cases h2 : derivePrivPath ext k path with
      | error e2 => simp
      | ok d => simp

/-- C1 witness: the amended statement fired at the failing bundle. -/
theorem c1_witness : derive extFail rootT [] = PResult.panic :=
  (c1_panic_not_propagate extFail rootT []).1 rfl

/-- C7: every validation error is produced before the Path Deriver is
invoked: on any call that fails validation the result is the validation
error for EVERY external bundle `ext` — including one whose every
primitive fails — so no external derivation or hashing result is ever
consulted on such calls. -/
theorem c7_validation_first (ext : Ext) (root : ExtendedPrivKey) :
    (∀ index, 0x80000000 ≤ index →
      derive_priv ext root index = PResult.err (Error.InvalidIndex index)
      ∧ derive_xprv ext root index = PResult.err (Error.InvalidIndex index))
    ∧ (∀ length index, length < 16 ∨ 64 < length →
        derive_hex ext root length index = PResult.err (Error.InvalidLength length))
    ∧ (∀ length index, 16 ≤ length → length ≤ 64 → 0x80000000 ≤ index →
        derive_hex ext root length index = PResult.err (Error.InvalidIndex index))
    ∧ (∀ wc index, wc < 12 ∨ 24 < wc ∨ wc % 6 ≠ 0 →
        derive_mnemonic ext root wc index = PResult.err (Error.InvalidWordCount wc))
    ∧ (∀ wc index, 12 ≤ wc → wc ≤ 24 → wc % 6 = 0 → 0x80000000 ≤ index →
        derive_mnemonic ext root wc index = PResult.err (Error.InvalidIndex index)) := by
  refine ⟨?_, ?_, ?_, ?_, ?_⟩
  · intro index h
    constructor
    · unfold derive_priv; rw [if_pos h]
    · unfold derive_xprv; rw [if_pos h]
  · intro length index h
    unfold derive_hex; rw [if_pos h]
  · intro length index h16 h64 h
    unfold derive_hex; rw [if_neg (by omega), if_pos h]
  · intro wc index h
    unfold derive_mnemonic; rw [if_pos h]
  · intro wc index h12 h24 h6 h
    unfold derive_mnemonic; rw [if_neg (by omega), if_pos h]

/-- C7 witness: each validation failure evaluated on concrete bundles,
one of which (`extFail`) would panic if derivation were ever reached. -/
theorem c7_witness :
    derive_priv extFail rootT 0x80000000
      = PResult.err (Error.InvalidIndex 0x80000000)
    ∧ derive_hex extFail rootT 10 0 = PResult.err (Error.InvalidLength 10)
    ∧ derive_hex extFail rootT 16 0x80000000
      = PResult.err (Error.InvalidIndex 0x80000000)
    ∧ derive_mnemonic extFail rootT 13 0
      = PResult.err (Error.InvalidWordCount 13)
    ∧ derive_mnemonic extFail rootT 12 0x80000000
      = PResult.err (Error.InvalidIndex 0x80000000) := by
  have h := c7_validation_first extFail rootT
  exact ⟨(h.1 0x80000000 le_rfl).1,
    h.2.1 10 0 (by omega),
    h.2.2.1 16 0x80000000 (by omega) (by omega) le_rfl,
    h.2.2.2.1 13 0 (by omega),
    h.2.2.2.2 12 0x80000000 (by omega) (by omega) (by omega) le_rfl⟩

/-- C9: error precedence on doubly-invalid calls: `derive_hex` with an
out-of-range length and an out-of-range index reports the length error,
and `derive_mnemonic` with an unsupported word count and an out-of-range
index reports the word-count error — never the index error. -/
theorem c9_precedence (ext : Ext) (root : ExtendedPrivKey)
    (length wc index : Nat)
    (hlen : length < 16 ∨ 64 < length)
    (hwc : wc < 12 ∨ 24 < wc ∨ wc % 6 ≠ 0)
    (_hidx : 0x80000000 ≤ index) :
    derive_hex ext root length index = PResult.err (Error.InvalidLength length)
    ∧ derive_hex ext root length index ≠ PResult.err (Error.InvalidIndex index)
    ∧ derive_mnemonic ext root wc index
      = PResult.err (Error.InvalidWordCount wc)
    ∧ derive_mnemonic ext root wc index
      ≠ PResult.err (Error.InvalidIndex index) := by
  have h1 : derive_hex ext root length index
      = PResult.err (Error.InvalidLength length) := by
    unfold derive_hex; rw [if_pos hlen]
  have h2 : derive_mnemonic ext root wc index
      = PResult.err (Error.InvalidWordCount wc) := by
    unfold derive_mnemonic; rw [if_pos hwc]
  refine ⟨h1, ?_, h2, ?_⟩
  · rw [h1]; simp
  · rw [h2]; simp

/-- C9 witness: precedence observed at length 10, word count 13, and the
lowest invalid index. -/
theorem c9_witness :
    derive_hex extT rootT 10 0x80000000 = PResult.err (Error.InvalidLength 10)
    ∧ derive_mnemonic extT rootT 13 0x80000000
      = PResult.err (Error.InvalidWordCount 13) := by
  have h := c9_precedence extT rootT 10 13 0x80000000 (by omega) (by omega) le_rfl
  exact ⟨h.1, h.2.2.1⟩

/-- C3 counterexample: the claim's universal failure half is false as
stated — `derive_hex` with length 10 and index `2^31` reports the
invalid-length error, not the invalid-index error carrying the index;
likewise `derive_mnemonic` with word count 13. -/
theorem c3_counterexample :
    derive_hex extT rootT 10 0x80000000 ≠ PResult.err (Error.InvalidIndex 0x80000000)
    ∧ derive_hex extT rootT 10 0x80000000 = PResult.err (Error.InvalidLength 10)
    ∧ derive_mnemonic extT rootT 13 0x80000000
      = PResult.err (Error.InvalidWordCount 13) := by
  refine ⟨?_, rfl, rfl⟩
  intro h
  simp [derive_hex] at h

/-- C3 amended: for `derive_priv` and `derive_xprv`, every index
`≥ 2^31` fails with the invalid-index error carrying that index; for
`derive_hex` and `derive_mnemonic` the same holds provided the
earlier-validated parameter (length, word count) is itself valid; and at
the boundary index `2^31 − 1`, with valid other parameters and succeeding
external primitives, all four encoders succeed. -/
theorem c3_index_bounds (ext : Ext) (root : ExtendedPrivKey)
    (hck : ∀ k c, exceptIsOk (ext.ckdPriv k c) = true)
    (hsec : ∀ b, ext.secValid b = true)
    (hmn : ∀ b, ∃ m, ext.mnemonicFromEntropy b = some m) :
    (∀ index, 0x80000000 ≤ index →
      derive_priv ext root index = PResult.err (Error.InvalidIndex index)
      ∧ derive_xprv ext root index = PResult.err (Error.InvalidIndex index)
      ∧ (∀ length, 16 ≤ length → length ≤ 64 →
          derive_hex ext root length index = PResult.err (Error.InvalidIndex index))
      ∧ (∀ wc, 12 ≤ wc → wc ≤ 24 → wc % 6 = 0 →
          derive_mnemonic ext root wc index
            = PResult.err (Error.InvalidIndex index)))
    ∧ (derive_priv ext root (0x80000000 - 1)).isOk = true
    ∧ (derive_xprv ext root (0x80000000 - 1)).isOk = true
    ∧ (∀ length, 16 ≤ length → length ≤ 64 →
        (derive_hex ext root length (0x80000000 - 1)).isOk = true)
    ∧ (∀ wc, 12 ≤ wc → wc ≤ 24 → wc % 6 = 0 →
        (derive_mnemonic ext root wc (0x80000000 - 1)).isOk = true) := by
  refine ⟨?_, ?_, ?_, ?_, ?_⟩
  · intro index h
    refine ⟨?_, ?_, ?_, ?_⟩
    · unfold derive_priv; rw [if_pos h]
    · unfold derive_xprv; rw [if_pos h]
    · intro length h16 h64
      unfold derive_hex; rw [if_neg (by omega), if_pos h]
    · intro wc h12 h24 h6
      unfold derive_mnemonic; rw [if_neg (by omega), if_pos h]
  · obtain ⟨data, hdata⟩ := derive_ok_of ext hck root
      [ChildNumber.Hardened 2, ChildNumber.Hardened (0x80000000 - 1)]
    unfold derive_priv
    rw [if_neg (by omega), fromHardenedIdx_lt (by omega)]
    dsimp only
    rw [hdata]
    dsimp only
    rw [if_pos (hsec _)]
    rfl
  · obtain ⟨data, hdata⟩ := derive_ok_of ext hck root
      [ChildNumber.Hardened 32, ChildNumber.Hardened (0x80000000 - 1)]
    unfold derive_xprv
    rw [if_neg (by omega), fromHardenedIdx_lt (by omega)]
    dsimp only
    rw [hdata]
    dsimp only
    rw [if_pos (hsec _)]
    rfl
  · intro length h16 h64
    obtain ⟨data, hdata⟩ := derive_ok_of ext hck root
      [ChildNumber.Hardened 128169, ChildNumber.Hardened length,
        ChildNumber.Hardened (0x80000000 - 1)]
    unfold derive_hex
    rw [if_neg (by omega), if_neg (by omega), fromHardenedIdx_lt (by omega),
      fromHardenedIdx_lt (by omega)]
    dsimp only
    rw [hdata]
    rfl
  · intro wc h12 h24 h6
    obtain ⟨data, hdata⟩ := derive_ok_of ext hck root
      [ChildNumber.Hardened 39, ChildNumber.Hardened 0,
        ChildNumber.Hardened wc, ChildNumber.Hardened (0x80000000 - 1)]
    obtain ⟨m, hm⟩ := hmn (data.take (wc * 4 / 3))
    unfold derive_mnemonic
    rw [if_neg (by omega), if_neg (by omega), fromHardenedIdx_lt (by omega),
      fromHardenedIdx_lt (by omega)]
    dsimp only
    rw [hdata]
    dsimp only
    rw [hm]
    rfl

/-- C3 witness: the first invalid index fails and the boundary index
`2^31 − 1` succeeds on the always-succeeding bundle. -/
theorem c3_witness :
    derive_priv extT rootT 0x80000000
      = PResult.err (Error.InvalidIndex 0x80000000)
    ∧ (derive_priv extT rootT (0x80000000 - 1)).isOk = true
    ∧ (derive_hex extT rootT 16 (0x80000000 - 1)).isOk = true
    ∧ (derive_mnemonic extT rootT 12 (0x80000000 - 1)).isOk = true := by
  have h := c3_index_bounds extT rootT (fun k c => rfl) (fun b => rfl)
    (fun b => ⟨[], rfl⟩)
  exact ⟨(h.1 0x80000000 le_rfl).1, h.2.1,
    h.2.2.2.1 16 (by omega) (by omega),
    h.2.2.2.2 12 (by omega) (by omega) (by omega)⟩

/-- C4: `derive_hex` rejects lengths outside `[16, 64]` with the
invalid-length error carrying the length; for an in-range length it
returns exactly the first `length` bytes of the 64-byte entropy derived
for the path `[128169', length', index']` (walked under the BIP-85
namespace), so the result has exactly `length` bytes. -/
theorem c4_hex (ext : Ext) (root : ExtendedPrivKey) (length index : Nat)
    (hidx : index < 0x80000000) :
    ((length < 16 ∨ 64 < length) →
      derive_hex ext root length index
        = PResult.err (Error.InvalidLength length))
    ∧ (16 ≤ length → length ≤ 64 → ∀ data,
        derive ext root [ChildNumber.Hardened 128169,
          ChildNumber.Hardened length, ChildNumber.Hardened index]
          = PResult.ok data →
        derive_hex ext root length index = PResult.ok (data.take length)
        ∧ (data.take length).length = length) := by
  constructor
  · intro h; unfold derive_hex; rw [if_pos h]
  · intro h16 h64 data hdata
    have hlen64 : data.length = 64 := derive_ok_length ext root _ data hdata
    constructor
    · unfold derive_hex
      rw [if_neg (by omega), if_neg (by omega), fromHardenedIdx_lt (by omega),
        fromHardenedIdx_lt hidx]
      dsimp only
      rw [hdata]
    · rw [List.length_take, hlen64]; omega

/-- C4 witness: a 32-byte request at index 0 on the concrete bundle. -/
theorem c4_witness :
    derive_hex extT rootT 32 0 = PResult.ok ((List.range 64).take 32)
    ∧ ((List.range 64).take 32).length = 32 :=
  (c4_hex extT rootT 32 0 (by omega)).2 (by omega) (by omega)
    (List.range 64) rfl

/-- C5: `derive_mnemonic` rejects any word count that is not between 12
and 24 and a multiple of 6 (equivalently, not in {12, 18, 24}) with the
invalid-word-count error carrying it; an accepted word count consumes
exactly `word_count * 4 / 3` bytes of the derived entropy and hands that
slice to the external BIP-39 encoder. -/
theorem c5_mnemonic (ext : Ext) (root : ExtendedPrivKey) (wc index : Nat)
    (hidx : index < 0x80000000) :
    ((wc < 12 ∨ 24 < wc ∨ wc % 6 ≠ 0) →
      derive_mnemonic ext root wc index
        = PResult.err (Error.InvalidWordCount wc))
    ∧ ((12 ≤ wc ∧ wc ≤ 24 ∧ wc % 6 = 0) ↔ (wc = 12 ∨ wc = 18 ∨ wc = 24))
    ∧ (12 ≤ wc → wc ≤ 24 → wc % 6 = 0 → ∀ data,
        derive ext root [ChildNumber.Hardened 39, ChildNumber.Hardened 0,
          ChildNumber.Hardened wc, ChildNumber.Hardened index]
          = PResult.ok data →
        derive_mnemonic ext root wc index =
          (match ext.mnemonicFromEntropy (data.take (wc * 4 / 3)) with
            | some m => PResult.ok m
            | none => PResult.panic)
        ∧ (data.take (wc * 4 / 3)).length = wc * 4 / 3) := by
  refine ⟨?_, by omega, ?_⟩
  · intro h; unfold derive_mnemonic; rw [if_pos h]
  · intro h12 h24 h6 data hdata
    have hlen64 : data.length = 64 := derive_ok_length ext root _ data hdata
    constructor
    · unfold derive_mnemonic
      rw [if_neg (by omega), if_neg (by omega), fromHardenedIdx_lt (by omega),
        fromHardenedIdx_lt hidx]
      dsimp only
      rw [hdata]
    · rw [List.length_take, hlen64]; omega

/-- C5 witness: a 12-word request consumes 16 entropy bytes on the
concrete bundle. -/
theorem c5_witness :
    derive_mnemonic extT rootT 12 0 =
      (match extT.mnemonicFromEntropy ((List.range 64).take (12 * 4 / 3)) with
        | some m => PResult.ok m
        | none => PResult.panic)
    ∧ ((List.range 64).take (12 * 4 / 3)).length = 12 * 4 / 3 :=
  (c5_mnemonic extT rootT 12 0 (by omega)).2.2 (by omega) (by omega)
    (by omega) (List.range 64) rfl

/-- C6: for a valid index, the extended key returned by `derive_xprv` has
private-key scalar `data.drop 32` (entropy bytes 32..64), chain code
`data.take 32` (entropy bytes 0..32), depth 0, a zeroed 4-byte parent
fingerprint, child number `Normal 0`, and the root's network; both slices
have exactly 32 bytes. -/
theorem c6_xprv (ext : Ext) (root : ExtendedPrivKey) (index : Nat)
    (hidx : index < 0x80000000) (data : List Nat)
    (hdata : derive ext root [ChildNumber.Hardened 32,
      ChildNumber.Hardened index] = PResult.ok data)
    (hsec : ext.secValid (data.drop 32) = true) :
    derive_xprv ext root index = PResult.ok
      ⟨root.network, 0, List.replicate 4 0, ChildNumber.Normal 0,
        ⟨true, root.network, data.drop 32⟩, data.take 32⟩
    ∧ (data.drop 32).length = 32
    ∧ (data.take 32).length = 32 := by
  have hlen64 : data.length = 64 := derive_ok_length ext root _ data hdata
  refine ⟨?_, ?_, ?_⟩
  · unfold derive_xprv
    rw [if_neg (by omega), fromHardenedIdx_lt hidx]
    dsimp only
    rw [hdata]
    dsimp only
    rw [if_pos hsec]
  · rw [List.length_drop, hlen64]
  · rw [List.length_take, hlen64]; omega

/-- C6 witness: the synthesized extended key at index 0 on the concrete
bundle. -/
theorem c6_witness :
    derive_xprv extT rootT 0 = PResult.ok
      ⟨rootT.network, 0, List.replicate 4 0, ChildNumber.Normal 0,
        ⟨true, rootT.network, (List.range 64).drop 32⟩,
        (List.range 64).take 32⟩ :=
  (c6_xprv extT rootT 0 (by omega) (List.range 64) rfl rfl).1

end Bip85
